import Mathlib

/-!
# Verification of the konnyaku translation core

Shallow embedding of `src/src-tauri/src/translation.rs` and
`src/src-tauri/src/lib.rs` (the Tauri command layer), together with proofs of
the specification claims about the translation pipeline.

The native llama.cpp backend (tokenizer, greedy sampler / logits, token byte
tables, context decode) and the network are modelled as deterministic oracles:
each oracle field corresponds to one call the Rust code makes into the
external library.  Everything the repository's own code does — prompt
composition, batching, the generation loop, incremental UTF-8 decoding use,
download/ load state handling, and the command-layer result shaping — is
translated directly from the source.
-/

set_option maxRecDepth 10000

deriving instance DecidableEq for Except

namespace Konnyaku

/-! ## Constants (translation.rs lines 16-22) -/

def MODEL_REPO : String := "LiquidAI/LFM2-350M-ENJP-MT-GGUF"

def MODEL_FILE : String := "lfm2-350m-enjp-mt-q4_k_m.gguf"

def SYSTEM_PROMPT_EN_TO_JA : String := "Translate to Japanese."

def SYSTEM_PROMPT_JA_TO_EN : String := "Translate to English."

/-- `MAX_TOKENS: i32 = 512` -/
def MAX_TOKENS : Int := 512

/-- `CONTEXT_SIZE: u32 = 4096` -/
def CONTEXT_SIZE : Nat := 4096

/-- translation.rs lines 24-28. -/
inductive TranslationDirection where
  | EnglishToJapanese
  | JapaneseToEnglish
deriving DecidableEq

/-! ## Incremental UTF-8 decoder

`translation.rs` line 306 creates `encoding_rs::UTF_8.new_decoder()` and feeds
each token's bytes through `decode_to_string(bytes, out, false)` (line 334).
`encoding_rs` is an external dependency; we model its UTF-8 decoder by the
WHATWG Encoding Standard UTF-8 decoder it implements: complete characters are
emitted, malformed sequences are replaced by U+FFFD, and a trailing
well-formed-but-incomplete sequence is buffered in the decoder state (the
`last = false` mode never flushes it). -/

/-- Is `b` a UTF-8 continuation byte (`0x80..0xBF`)? -/
def contB (b : UInt8) : Bool := 0x80 ≤ b && b ≤ 0xBF

/-- Lower bound for the second byte of a multi-byte sequence (WHATWG UTF-8). -/
def sndLo (b : UInt8) : UInt8 := if b = 0xE0 then 0xA0 else if b = 0xF0 then 0x90 else 0x80

/-- Upper bound for the second byte of a multi-byte sequence (WHATWG UTF-8). -/
def sndHi (b : UInt8) : UInt8 := if b = 0xED then 0x9F else if b = 0xF4 then 0x8F else 0xBF

/-- Is `c` a valid second byte after lead byte `lead`? -/
def sndOkB (lead c : UInt8) : Bool := sndLo lead ≤ c && c ≤ sndHi lead

def cp2 (b c : UInt8) : Nat := (b.toNat - 0xC0) * 64 + (c.toNat - 0x80)

def cp3 (b c d : UInt8) : Nat :=
  (b.toNat - 0xE0) * 4096 + (c.toNat - 0x80) * 64 + (d.toNat - 0x80)

def cp4 (b c d e : UInt8) : Nat :=
  (b.toNat - 0xF0) * 262144 + (c.toNat - 0x80) * 4096 + (d.toNat - 0x80) * 64 + (e.toNat - 0x80)

/-- The replacement character emitted for malformed input. -/
def repl : Char := '�'

/-- Processing one byte with empty decoder state: ASCII emits directly,
lead bytes start a pending sequence, anything else is malformed. -/
def stepFresh (b : UInt8) : List Char × List UInt8 :=
  if b ≤ 0x7F then ([Char.ofNat b.toNat], [])
  else if 0xC2 ≤ b && b ≤ 0xDF then ([], [b])
  else if 0xE0 ≤ b && b ≤ 0xEF then ([], [b])
  else if 0xF0 ≤ b && b ≤ 0xF4 then ([], [b])
  else ([repl], [])

/-- One byte into the incremental decoder. `pending` is the buffered prefix
of an incomplete multi-byte sequence (at most 3 bytes). On a malformed
continuation byte the WHATWG decoder emits U+FFFD for the abandoned sequence
and re-examines the offending byte with fresh state. -/
def utf8Accept (pending : List UInt8) (b : UInt8) : List Char × List UInt8 :=
  match pending with
  | [] => stepFresh b
  | [l1] =>
    if 0xC2 ≤ l1 && l1 ≤ 0xDF then
      if contB b then ([Char.ofNat (cp2 l1 b)], [])
      else (repl :: (stepFresh b).1, (stepFresh b).2)
    else if 0xE0 ≤ l1 && l1 ≤ 0xEF then
      if sndOkB l1 b then ([], [l1, b])
      else (repl :: (stepFresh b).1, (stepFresh b).2)
    else if 0xF0 ≤ l1 && l1 ≤ 0xF4 then
      if sndOkB l1 b then ([], [l1, b])
      else (repl :: (stepFresh b).1, (stepFresh b).2)
    else (repl :: (stepFresh b).1, (stepFresh b).2)
  | [l1, b2] =>
    if 0xE0 ≤ l1 && l1 ≤ 0xEF then
      if contB b then ([Char.ofNat (cp3 l1 b2 b)], [])
      else (repl :: (stepFresh b).1, (stepFresh b).2)
    else if 0xF0 ≤ l1 && l1 ≤ 0xF4 then
      if contB b then ([], [l1, b2, b])
      else (repl :: (stepFresh b).1, (stepFresh b).2)
    else (repl :: (stepFresh b).1, (stepFresh b).2)
  | [l1, b2, b3] =>
    if 0xF0 ≤ l1 && l1 ≤ 0xF4 then
      if contB b then ([Char.ofNat (cp4 l1 b2 b3 b)], [])
      else (repl :: (stepFresh b).1, (stepFresh b).2)
    else (repl :: (stepFresh b).1, (stepFresh b).2)
  | _ => (repl :: (stepFresh b).1, (stepFresh b).2)

/-- Feed a byte list through the incremental decoder starting from state
`st`: all characters completed along the way, and the final pending bytes. -/
def utf8Run (st : List UInt8) : List UInt8 → List Char × List UInt8
  | [] => ([], st)
  | b :: rest =>
    let r1 := utf8Accept st b
    let r2 := utf8Run r1.2 rest
    (r1.1 ++ r2.1, r2.2)

/-- One-pass decode of a whole byte stream from the empty decoder state. -/
def utf8DecodeLoop (l : List UInt8) : List Char × List UInt8 := utf8Run [] l

/-- `encoding_rs` `Decoder::decode_to_string(bytes, out, false)` on a decoder
whose buffered state is `st`: completed characters are appended to the output
and the new trailing incomplete sequence becomes the new state; `last = false`
means the final pending bytes are never flushed. -/
def decoderFeed (st input : List UInt8) : List Char × List UInt8 :=
  utf8Run st input

/-- Reference run of the incremental decoder over a list of byte chunks,
threading the decoder state; returns all emitted characters and the final
pending (never-flushed) bytes. -/
def feedChunks (st : List UInt8) : List (List UInt8) → List Char × List UInt8
  | [] => ([], st)
  | c :: cs =>
    let r1 := decoderFeed st c
    let r2 := feedChunks r1.2 cs
    (r1.1 ++ r2.1, r2.2)

/-- Decoding a concatenation: decode the first part, then continue from its
final state into the second part. This is what makes chunk-by-chunk
incremental decoding agree with one-pass decoding. -/
theorem utf8Run_append (a b : List UInt8) : ∀ st : List UInt8,
    utf8Run st (a ++ b) =
      ((utf8Run st a).1 ++ (utf8Run (utf8Run st a).2 b).1,
        (utf8Run (utf8Run st a).2 b).2) := by
  induction a with
  | nil => intro st; simp [utf8Run]
  | cons x xs ih =>
    intro st
    simp only [List.cons_append, utf8Run, List.append_eq]
    rw [ih]
    simp

/-- Chunk-by-chunk incremental decoding equals one-pass decoding of the
concatenated stream. -/
theorem feedChunks_join (cs : List (List UInt8)) : ∀ st : List UInt8,
    feedChunks st cs = utf8Run st cs.join := by
  induction cs with
  | nil => intro st; simp [feedChunks, utf8Run]
  | cons c cs ih =>
    intro st
    have hj : (c :: cs).join = c ++ cs.join := rfl
    rw [hj, utf8Run_append]
    simp [feedChunks, decoderFeed, ih]

/-! ## Model oracle

The native llama.cpp layer, as exercised by `translation.rs`.  Each field is
one external call; all fields are deterministic functions (greedy sampling has
no random state, and `LlamaSampler::greedy()`'s `accept` is stateless), which
is exactly the code's determinism argument. -/

/-- A llama token (`i32` in the source). -/
abbrev Token := Int

structure ModelOracle where
  /-- `LlamaModel::str_to_token` minus the BOS marker; `AddBos::Always`
  prepends `bosTok` (library semantics). `Except` models the fallible call
  (translation.rs lines 287-289). -/
  tokenizeRaw : String → Except String (List Token)
  /-- The model's beginning-of-sequence token. -/
  bosTok : Token
  /-- `model.is_eog_token` (line 323). -/
  isEog : Token → Bool
  /-- `model.token_to_bytes(token, Special::Tokenize)` (lines 328-330). -/
  tokenToBytes : Token → Except String (List UInt8)
  /-- Greedy sampling: the single highest-probability next token as a pure
  function of the decoded context (lines 310, 319). -/
  greedySample : List Token → Token
  /-- `ctx.decode(batch)` outcome as a function of the tokens decoded so far:
  `none` = success, `some msg` = forward-pass failure (lines 302, 346). -/
  ctxDecodeOk : List Token → Option String
  /-- `model.new_context` outcome (lines 282-284): `none` = success. -/
  newContextErr : Option String

/-- Observable events of one service call: each constructor corresponds to one
call site into the native library or the network in the source. -/
inductive Ev where
  /-- HTTP GET tier of `ensure_model_downloaded` (line 102). -/
  | netDirect
  /-- hf-hub API fallback tier (line 121). -/
  | netHub
  /-- `LlamaModel::load_from_file` (line 237). -/
  | nativeLoad
  /-- `model.str_to_token(full_prompt, AddBos::Always)` (line 288). -/
  | tokenizeEv (s : String)
  /-- prefill `ctx.decode` over the whole prompt batch (line 302). -/
  | prefillEv (toks : List Token)
  /-- one `sampler.sample` call in the generation loop (line 319). -/
  | sampleEv
  /-- the loop broke at an end-of-generation token (line 324). -/
  | eogStop
  /-- the bytes of one generated token fed to the decoder (line 334). -/
  | bytesEv (bs : List UInt8)
  /-- per-token `ctx.decode` feedback pass (line 346). -/
  | ctxDecodeEv
deriving DecidableEq

def countEv (e : Ev) (evs : List Ev) : Nat := evs.count e

/-- The byte chunks a trace fed to the incremental UTF-8 decoder. -/
def chunksOf (evs : List Ev) : List (List UInt8) :=
  evs.filterMap fun e =>
    match e with
    | .bytesEv bs => some bs
    | _ => none

/-- llama_cpp_2 `BatchAddError::InsufficientSpace(512)` display — produced
when a 513th token is added to `LlamaBatch::new(512, 1)` (lines 292-298). -/
def BATCH_ADD_ERROR_MSG : String := "Insufficient Space of 512"

/-- `batch.add(token, pos, &[0], logits)`: fails when the batch is full
(capacity check before the write, as in llama_cpp_2). -/
def batchAddOne (cap : Nat) (entries : List (Token × Nat × Bool)) (tok : Token)
    (pos : Nat) (logits : Bool) : Except String (List (Token × Nat × Bool)) :=
  if cap ≤ entries.length then .error BATCH_ADD_ERROR_MSG
  else .ok (entries ++ [(tok, pos, logits)])

/-- The prompt batching loop of translation.rs lines 295-299: add every prompt
token at consecutive positions, requesting logits only for the last one. -/
def addPrompt (cap lastIdx : Nat) : List Token → Nat → List (Token × Nat × Bool) →
    Except String (List (Token × Nat × Bool))
  | [], _, acc => .ok acc
  | t :: ts, i, acc =>
    match batchAddOne cap acc t i (i == lastIdx) with
    | .error e => .error e
    | .ok acc' => addPrompt cap lastIdx ts (i + 1) acc'

theorem addPrompt_ok_of_le (cap lastIdx : Nat) :
    ∀ (ts : List Token) (i : Nat) (acc : List (Token × Nat × Bool)),
      acc.length + ts.length ≤ cap → ∃ acc', addPrompt cap lastIdx ts i acc = .ok acc' := by
  intro ts
  induction ts with
  | nil => intro i acc _; exact ⟨acc, rfl⟩
  | cons t ts ih =>
    intro i acc hle
    simp only [List.length_cons] at hle
    have hlt : acc.length < cap := by omega
    have hadd : batchAddOne cap acc t i (i == lastIdx) = .ok (acc ++ [(t, i, i == lastIdx)]) := by
      simp [batchAddOne, Nat.not_le.mpr hlt]
    simp only [addPrompt, hadd]
    exact ih (i + 1) _ (by simp; omega)

theorem addPrompt_err_of_gt (cap lastIdx : Nat) :
    ∀ (ts : List Token) (i : Nat) (acc : List (Token × Nat × Bool)),
      acc.length ≤ cap → cap < acc.length + ts.length →
      addPrompt cap lastIdx ts i acc = .error BATCH_ADD_ERROR_MSG := by
  intro ts
  induction ts with
  | nil => intro i acc h1 h2; simp at h2; omega
  | cons t ts ih =>
    intro i acc h1 h2
    by_cases hfull : cap ≤ acc.length
    · have : batchAddOne cap acc t i (i == lastIdx) = .error BATCH_ADD_ERROR_MSG := by
        simp [batchAddOne, hfull]
      simp [addPrompt, this]
    · have hlt : acc.length < cap := Nat.not_le.mp hfull
      have hadd : batchAddOne cap acc t i (i == lastIdx) = .ok (acc ++ [(t, i, i == lastIdx)]) := by
        simp [batchAddOne, Nat.not_le.mpr hlt]
      simp only [addPrompt, hadd]
      refine ih (i + 1) _ (by simp; omega) ?_
      simp only [List.length_append, List.length_cons] at h2 ⊢
      simp at h2 ⊢
      omega

/-! ## The generation loop (translation.rs lines 312-348) -/

/-- Per-request generation state: the tokens decoded into the context so far
(the context's KV state), the accumulated output string, the incremental
decoder's pending bytes, the position counter `n_cur`, and the event trace. -/
structure GenSt where
  ctxToks : List Token
  translation : String
  pend : List UInt8
  nCur : Nat
  evs : List Ev

/-- `for _ in 0..max_new_tokens { ... }`: sample, stop on EOG, convert the
token to bytes, feed them through the incremental decoder, feed the token
back at the next position, decode.  Returns the final state plus `none` on
normal completion (EOG or budget exhausted) or `some msg` when a native call
failed (the `?` operators at lines 330, 341, 347). -/
def genLoop (m : ModelOracle) : Nat → GenSt → GenSt × Option String
  | 0, st => (st, none)
  | fuel + 1, st =>
    let tok := m.greedySample st.ctxToks
    let st1 : GenSt := { st with evs := st.evs ++ [Ev.sampleEv] }
    if m.isEog tok then ({ st1 with evs := st1.evs ++ [Ev.eogStop] }, none)
    else
      match m.tokenToBytes tok with
      | .error _ => (st1, some "Failed to convert token to bytes")
      | .ok bs =>
        let r := decoderFeed st1.pend bs
        let st2 : GenSt :=
          { st1 with
            translation := st1.translation ++ String.mk r.1
            pend := r.2
            evs := st1.evs ++ [Ev.bytesEv bs] }
        -- batch.clear(); batch.add(token, n_cur, &[0], true): one token in an
        -- empty capacity-512 batch (lines 340-341)
        match batchAddOne 512 [] tok st2.nCur true with
        | .error e => (st2, some e)
        | .ok _ =>
          let ctx2 := st2.ctxToks ++ [tok]
          match m.ctxDecodeOk ctx2 with
          | some _ => (st2, some "Failed to decode token")
          | none =>
            genLoop m fuel
              { st2 with
                ctxToks := ctx2
                nCur := st2.nCur + 1
                evs := st2.evs ++ [Ev.ctxDecodeEv] }

/-- System prompt selection (translation.rs lines 265-268). -/
def systemPromptOf : TranslationDirection → String
  | .EnglishToJapanese => SYSTEM_PROMPT_EN_TO_JA
  | .JapaneseToEnglish => SYSTEM_PROMPT_JA_TO_EN

/-- `format!("{}\n{}", system_prompt, text)` (line 272). -/
def fullPromptOf (d : TranslationDirection) (text : String) : String :=
  systemPromptOf d ++ "\n" ++ text

/-- Generation-session state right after the prefill pass: the context holds
the prompt tokens, nothing has been generated, the decoder is empty, and
`n_cur = batch.n_tokens()` equals the prompt length (line 314). -/
def initGenSt (p : String) (toks : List Token) : GenSt :=
  { ctxToks := toks
    translation := ""
    pend := []
    nCur := toks.length
    evs := [Ev.tokenizeEv p, Ev.prefillEv toks] }

/-- Rust `str::trim` (translation.rs line 351): strip leading and trailing
whitespace characters. (`Char.isWhitespace` is the ASCII core of Rust's
Unicode `char::is_whitespace`; the difference is immaterial here.)
Implemented structurally over the character list so it evaluates. -/
def rustTrim (s : String) : String :=
  String.mk (((s.data.dropWhile Char.isWhitespace).reverse.dropWhile
    Char.isWhitespace).reverse)

/-- Post-loop wrap-up (translation.rs lines 350-355): an error from the loop
propagates; otherwise the accumulated translation is trimmed and returned.
Either way the observable trace is the loop's final trace. -/
def finishRun (r : GenSt × Option String) : Except String String × List Ev :=
  match r.2 with
  | some e => (.error e, r.1.evs)
  | none => (.ok (rustTrim r.1.translation), r.1.evs)

/-- `TranslationService::translate` after the model is in hand
(translation.rs lines 264-355): compose the prompt, create the context,
tokenize with `AddBos::Always` (BOS prepended), batch and prefill the prompt,
run the generation loop, trim the result.  Returns the result together with
the trace of native calls. -/
def translateCore (m : ModelOracle) (text : String) (d : TranslationDirection) :
    Except String String × List Ev :=
  let fullPrompt := fullPromptOf d text
  match m.newContextErr with
  | some _ => (.error "Failed to create context", [])
  | none =>
    match m.tokenizeRaw fullPrompt with
    | .error _ => (.error "Failed to tokenize prompt", [Ev.tokenizeEv fullPrompt])
    | .ok raw =>
      -- AddBos::Always prepends the model's BOS token
      let toks := m.bosTok :: raw
      match addPrompt 512 (toks.length - 1) toks 0 [] with
      | .error e => (.error e, [Ev.tokenizeEv fullPrompt])
      | .ok _batch =>
        match m.ctxDecodeOk toks with
        | some _ =>
          (.error "Failed to decode prompt", [Ev.tokenizeEv fullPrompt, Ev.prefillEv toks])
        | none =>
          let maxNew := (MAX_TOKENS - (toks.length : Int)).toNat
          finishRun (genLoop m maxNew (initGenSt fullPrompt toks))

/-! ## Download / load state machine (translation.rs lines 78-249) and the
Tauri command layer (lib.rs) -/

/-- The cached artifact on disk: bytes written so far and whether the write
ran to completion. Existence of the file is `Option.isSome`. -/
structure FileSt where
  size : Nat
  complete : Bool
deriving DecidableEq

/-- Process-wide service state: the model file at the cache path and the
`ModelState.is_loaded` flag (model presence coincides with the flag: both are
set together at lines 244-245). -/
structure SvcWorld where
  file : Option FileSt
  isLoaded : Bool
deriving DecidableEq

inductive HubOutcome where
  /-- hf-hub download + copy to cache succeeded. -/
  | ok
  /-- hf-hub tier failed; the displayed error message. -/
  | fail (msg : String)
  /-- the 300 s `tokio::time::timeout` fired. -/
  | timeout
deriving DecidableEq

/-- Network behaviour for one `ensure_model_downloaded` attempt. -/
structure NetOracle where
  /-- outcome of `client.get(url).send()`: transport error or HTTP status. -/
  directSend : Except String Nat
  /-- the body stream: each element is one chunk (its byte count) or a
  mid-stream transfer error. -/
  directChunks : List (Except String Nat)
  /-- outcome of the hf-hub fallback tier. -/
  hubResult : HubOutcome
  /-- size of the artifact the hub tier copies into the cache. -/
  hubSize : Nat

/-- `reqwest::StatusCode::is_success` (2xx). -/
def statusOk (s : Nat) : Bool := 200 ≤ s && s ≤ 299

/-- The chunk-writing loop of `download_file_direct` (lines 189-209): returns
the outcome and the number of bytes that reached the file. -/
def writeChunks : List (Except String Nat) → Nat → Except String Unit × Nat
  | [], sz => (.ok (), sz)
  | .error _ :: _, sz => (.error "Error while downloading chunk", sz)
  | .ok n :: rest, sz => writeChunks rest (sz + n)

/-- `TranslationService::download_file_direct` (lines 158-215). Note that
`tokio::fs::File::create` (line 181) truncates/creates the destination file
before any byte arrives, so a failed stream leaves a half-written file at the
cache path. -/
def downloadFileDirect (net : NetOracle) (w : SvcWorld) : Except String Unit × SvcWorld :=
  match net.directSend with
  | .error _ => (.error "Failed to start download", w)
  | .ok status =>
    if statusOk status then
      match writeChunks net.directChunks 0 with
      | (.ok (), sz) => (.ok (), { w with file := some ⟨sz, true⟩ })
      | (.error e, sz) => (.error e, { w with file := some ⟨sz, false⟩ })
    else (.error ("HTTP error: " ++ toString status), w)

/-- `TranslationService::ensure_model_downloaded` (lines 78-155): return
immediately if the cache path exists, otherwise direct download with hf-hub
fallback. -/
def ensureModelDownloaded (net : NetOracle) (w : SvcWorld) :
    Except String Unit × SvcWorld × List Ev :=
  if w.file.isSome then (.ok (), w, [])
  else
    match downloadFileDirect net w with
    | (.ok (), w') => (.ok (), w', [Ev.netDirect])
    | (.error _, w') =>
      match net.hubResult with
      | .ok => (.ok (), { w' with file := some ⟨net.hubSize, true⟩ }, [Ev.netDirect, Ev.netHub])
      | .fail msg => (.error msg, w', [Ev.netDirect, Ev.netHub])
      | .timeout =>
        (.error "Model download timed out after 5 minutes", w', [Ev.netDirect, Ev.netHub])

/-- All oracles one service call consults. -/
structure SvcOracles where
  net : NetOracle
  /-- `LlamaModel::load_from_file` outcome (lines 237-242). -/
  loadRes : Except String Unit
  model : ModelOracle

/-- `TranslationService::ensure_model_loaded` (lines 218-249): under the
state lock, return if loaded; otherwise ensure the download, then load and
flip the flag only after a fully successful load. -/
def ensureModelLoaded (o : SvcOracles) (w : SvcWorld) :
    Except String Unit × SvcWorld × List Ev :=
  if w.isLoaded then (.ok (), w, [])
  else
    match ensureModelDownloaded o.net w with
    | (.error e, w', evs) => (.error e, w', evs)
    | (.ok (), w', evs) =>
      match o.loadRes with
      | .error _ => (.error "Failed to load model", w', evs ++ [Ev.nativeLoad])
      | .ok () => (.ok (), { w' with isLoaded := true }, evs ++ [Ev.nativeLoad])

/-- `TranslationService::is_model_loaded` (lines 359-361): pure state read. -/
def isModelLoaded (w : SvcWorld) : Bool := w.isLoaded

/-- `TranslationService::translate` (lines 252-356): ensure the model is
loaded, then run the per-request generation session. -/
def svcTranslate (o : SvcOracles) (w : SvcWorld) (text : String)
    (d : TranslationDirection) : Except String String × SvcWorld × List Ev :=
  match ensureModelLoaded o w with
  | (.error e, w', evs) => (.error e, w', evs)
  | (.ok (), w', evs) =>
    let r := translateCore o.model text d
    (r.1, w', evs ++ r.2)

/-- lib.rs lines 14-19. -/
structure TranslateResponse where
  success : Bool
  translation : Option String
  error : Option String
deriving DecidableEq

/-- The direction-token match of the `translate` command (lib.rs lines 35-45). -/
def dirOf : String → Option TranslationDirection
  | "en-ja" => some .EnglishToJapanese
  | "ja-en" => some .JapaneseToEnglish
  | _ => none

/-- The `translate` Tauri command (lib.rs lines 29-60).  The Rust signature is
`Result<TranslateResponse, String>`; every branch returns `Ok`, converting
all failures into the structured response. -/
def translateCmd (o : SvcOracles) (w : SvcWorld) (text direction : String) :
    Except String TranslateResponse × SvcWorld × List Ev :=
  match dirOf direction with
  | none =>
    (.ok { success := false, translation := none,
           error := some ("Invalid translation direction: " ++ direction) }, w, [])
  | some d =>
    match svcTranslate o w text d with
    | (.ok t, w', evs) =>
      (.ok { success := true, translation := some t, error := none }, w', evs)
    | (.error e, w', evs) =>
      (.ok { success := false, translation := none,
             error := some ("Translation failed: " ++ e) }, w', evs)

/-- `get_supported_languages` (lib.rs lines 85-87). -/
def getSupportedLanguages : List String := ["en-ja", "ja-en"]

/-! ## Concrete instances used to witness the theorems -/

/-- A network where both download tiers fail outright. -/
def anyNet : NetOracle :=
  { directSend := .error "connection refused"
    directChunks := []
    hubResult := .fail "Failed to download model from HuggingFace"
    hubSize := 0 }

/-- A small concrete model: BOS = 1, the prompt tokenizes to `[5]`, the model
then greedily emits token 10 (bytes of "こ"), token 11 (bytes `E3 82`, an
incomplete fragment of a 3-byte character), then the EOG token 99. -/
def toyModel : ModelOracle :=
  { tokenizeRaw := fun _ => .ok [5]
    bosTok := 1
    isEog := fun tok => tok == 99
    tokenToBytes := fun tok =>
      if tok == 10 then .ok [0xE3, 0x81, 0x93]
      else if tok == 11 then .ok [0xE3, 0x82]
      else .ok [0x41]
    greedySample := fun ctx =>
      if ctx.length == 2 then 10 else if ctx.length == 3 then 11 else 99
    ctxDecodeOk := fun _ => none
    newContextErr := none }

/-- Like `toyModel`, but the prompt tokenizes to 511 tokens, so with BOS the
prompt takes the whole 512-token budget and `max_new_tokens = 0`. -/
def longTok : ModelOracle :=
  { toyModel with tokenizeRaw := fun _ => .ok (List.replicate 511 5) }

/-- Like `toyModel`, but the prompt tokenizes to 600 tokens — more than the
usable 512-token window. -/
def hugeTok : ModelOracle :=
  { toyModel with tokenizeRaw := fun _ => .ok (List.replicate 600 5) }

/-- Oracles for a healthy service. -/
def okOracles : SvcOracles :=
  { net := anyNet, loadRes := .ok (), model := toyModel }

/-- Oracles where the native model load always fails. -/
def failLoadOracles : SvcOracles :=
  { net := anyNet, loadRes := .error "llama load failure", model := toyModel }

/-- World with the artifact cached and the model loaded. -/
def wLoaded : SvcWorld := { file := some ⟨1, true⟩, isLoaded := true }

/-- World with the artifact cached but the model not yet loaded. -/
def wCached : SvcWorld := { file := some ⟨1, true⟩, isLoaded := false }

/-- Fresh world: no cached file, nothing loaded. -/
def wEmpty : SvcWorld := { file := none, isLoaded := false }

/-- Network for the C4 scenario: the direct HTTP tier starts successfully
(status 200), writes one 7-byte chunk, then the stream fails; the hub
fallback tier also fails. -/
def c4Net : NetOracle :=
  { directSend := .ok 200
    directChunks := [.ok 7, .error "connection reset mid-stream"]
    hubResult := .fail "Failed to download model from HuggingFace"
    hubSize := 0 }

/-! ## Helper lemmas about the service state machine -/

theorem ensureModelDownloaded_cached (net : NetOracle) (w : SvcWorld)
    (h : w.file.isSome) : ensureModelDownloaded net w = (.ok (), w, []) := by
  simp [ensureModelDownloaded, h]

theorem downloadFileDirect_ok_isSome (net : NetOracle) (w : SvcWorld)
    (h : (downloadFileDirect net w).1 = .ok ()) :
    ((downloadFileDirect net w).2).file.isSome := by
  unfold downloadFileDirect at h ⊢
  cases hsend : net.directSend with
  | error e => rw [hsend] at h; simp at h
  | ok status =>
    rw [hsend] at h
    by_cases hs : statusOk status = true
    · rcases hw : writeChunks net.directChunks 0 with ⟨r, sz⟩
      rcases r with e | u
      · simp [hs, hw] at h
      · simp [hs]
    · simp [hs] at h

theorem ensureModelDownloaded_ok_isSome (net : NetOracle) (w w' : SvcWorld)
    (evs : List Ev) (h : ensureModelDownloaded net w = (.ok (), w', evs)) :
    w'.file.isSome := by
  by_cases hw : w.file.isSome
  · rw [ensureModelDownloaded_cached net w hw] at h
    cases h
    exact hw
  · rw [ensureModelDownloaded, if_neg hw] at h
    rcases hd : downloadFileDirect net w with ⟨r, w2⟩
    rw [hd] at h
    rcases r with e | u
    · rcases hh : net.hubResult with _ | msg | _ <;> rw [hh] at h <;> cases h
      simp
    · cases h
      have := downloadFileDirect_ok_isSome net w (by rw [hd])
      rw [hd] at this
      exact this

theorem ensureModelLoaded_loaded (o : SvcOracles) (w : SvcWorld)
    (h : w.isLoaded = true) : ensureModelLoaded o w = (.ok (), w, []) := by
  simp [ensureModelLoaded, h]

theorem ensureModelLoaded_ok_loaded (o : SvcOracles) (w w' : SvcWorld)
    (evs : List Ev) (h : ensureModelLoaded o w = (.ok (), w', evs)) :
    w'.isLoaded = true := by
  by_cases hw : w.isLoaded
  · rw [ensureModelLoaded_loaded o w hw] at h
    cases h
    exact hw
  · rw [ensureModelLoaded, if_neg hw] at h
    rcases hd : ensureModelDownloaded o.net w with ⟨r, w2, evs2⟩
    rw [hd] at h
    rcases r with e | u
    · cases h
    · rcases hl : o.loadRes with e | u <;> rw [hl] at h <;> cases h
      rfl

/-! ## Generation loop lemmas -/

theorem genLoop_zero (m : ModelOracle) (st : GenSt) : genLoop m 0 st = (st, none) := rfl

theorem genLoop_eog_case (m : ModelOracle) (fuel : Nat) (st : GenSt)
    (h : m.isEog (m.greedySample st.ctxToks) = true) :
    genLoop m (fuel + 1) st =
      ({ st with evs := st.evs ++ [Ev.sampleEv, Ev.eogStop] }, none) := by
  simp [genLoop, h]

theorem genLoop_bytesErr_case (m : ModelOracle) (fuel : Nat) (st : GenSt) (e : String)
    (h1 : m.isEog (m.greedySample st.ctxToks) = false)
    (h2 : m.tokenToBytes (m.greedySample st.ctxToks) = .error e) :
    genLoop m (fuel + 1) st =
      ({ st with evs := st.evs ++ [Ev.sampleEv] },
        some "Failed to convert token to bytes") := by
  simp [genLoop, h1, h2]

theorem genLoop_decodeErr_case (m : ModelOracle) (fuel : Nat) (st : GenSt)
    (bs : List UInt8) (e : String)
    (h1 : m.isEog (m.greedySample st.ctxToks) = false)
    (h2 : m.tokenToBytes (m.greedySample st.ctxToks) = .ok bs)
    (h3 : m.ctxDecodeOk (st.ctxToks ++ [m.greedySample st.ctxToks]) = some e) :
    genLoop m (fuel + 1) st =
      ({ st with
          translation := st.translation ++ String.mk (decoderFeed st.pend bs).1
          pend := (decoderFeed st.pend bs).2
          evs := st.evs ++ [Ev.sampleEv, Ev.bytesEv bs] },
        some "Failed to decode token") := by
  simp [genLoop, h1, h2, h3, batchAddOne]

theorem genLoop_step_case (m : ModelOracle) (fuel : Nat) (st : GenSt) (bs : List UInt8)
    (h1 : m.isEog (m.greedySample st.ctxToks) = false)
    (h2 : m.tokenToBytes (m.greedySample st.ctxToks) = .ok bs)
    (h3 : m.ctxDecodeOk (st.ctxToks ++ [m.greedySample st.ctxToks]) = none) :
    genLoop m (fuel + 1) st =
      genLoop m fuel
        { st with
          ctxToks := st.ctxToks ++ [m.greedySample st.ctxToks]
          translation := st.translation ++ String.mk (decoderFeed st.pend bs).1
          pend := (decoderFeed st.pend bs).2
          nCur := st.nCur + 1
          evs := st.evs ++ [Ev.sampleEv, Ev.bytesEv bs, Ev.ctxDecodeEv] } := by
  simp [genLoop, h1, h2, h3, batchAddOne]

theorem countEv_append (e : Ev) (l1 l2 : List Ev) :
    countEv e (l1 ++ l2) = countEv e l1 + countEv e l2 :=
  List.count_append e l1 l2

/-- Trace extension and iteration bound: the loop only appends events, and
each iteration contributes exactly one sample event, so at most `fuel` sample
events are added. -/
theorem genLoop_evs_count (m : ModelOracle) :
    ∀ (fuel : Nat) (st : GenSt),
      ∃ tail, ((genLoop m fuel st).1).evs = st.evs ++ tail ∧
        countEv Ev.sampleEv ((genLoop m fuel st).1).evs ≤
          countEv Ev.sampleEv st.evs + fuel := by
  intro fuel
  induction fuel with
  | zero => intro st; exact ⟨[], by simp [genLoop_zero]⟩
  | succ fuel ih =>
    intro st
    cases hEog : m.isEog (m.greedySample st.ctxToks) with
    | true =>
      refine ⟨[Ev.sampleEv, Ev.eogStop], ?_⟩
      rw [genLoop_eog_case m fuel st hEog]
      simp [countEv_append, countEv]
    | false =>
      cases hB : m.tokenToBytes (m.greedySample st.ctxToks) with
      | error e =>
        refine ⟨[Ev.sampleEv], ?_⟩
        rw [genLoop_bytesErr_case m fuel st e hEog hB]
        simp [countEv_append, countEv]
      | ok bs =>
        cases hD : m.ctxDecodeOk (st.ctxToks ++ [m.greedySample st.ctxToks]) with
        | some e =>
          refine ⟨[Ev.sampleEv, Ev.bytesEv bs], ?_⟩
          rw [genLoop_decodeErr_case m fuel st bs e hEog hB hD]
          simp [countEv_append, countEv]
        | none =>
          rw [genLoop_step_case m fuel st bs hEog hB hD]
          obtain ⟨tail, h1, h2⟩ := ih
            { st with
              ctxToks := st.ctxToks ++ [m.greedySample st.ctxToks]
              translation := st.translation ++ String.mk (decoderFeed st.pend bs).1
              pend := (decoderFeed st.pend bs).2
              nCur := st.nCur + 1
              evs := st.evs ++ [Ev.sampleEv, Ev.bytesEv bs, Ev.ctxDecodeEv] }
          refine ⟨[Ev.sampleEv, Ev.bytesEv bs, Ev.ctxDecodeEv] ++ tail, ?_, ?_⟩
          · rw [h1]; simp
          · refine le_trans h2 ?_
            simp [countEv_append, countEv]
            omega

/-- If the loop finished without error in fewer than `fuel` iterations, it
must have stopped at an end-of-generation token. -/
theorem genLoop_early_stop_eog (m : ModelOracle) :
    ∀ (fuel : Nat) (st : GenSt),
      (genLoop m fuel st).2 = none →
      countEv Ev.sampleEv ((genLoop m fuel st).1).evs <
        countEv Ev.sampleEv st.evs + fuel →
      Ev.eogStop ∈ ((genLoop m fuel st).1).evs := by
  intro fuel
  induction fuel with
  | zero =>
    intro st _ hlt
    simp [genLoop_zero] at hlt
  | succ fuel ih =>
    intro st hok hlt
    cases hEog : m.isEog (m.greedySample st.ctxToks) with
    | true =>
      rw [genLoop_eog_case m fuel st hEog]
      simp
    | false =>
      cases hB : m.tokenToBytes (m.greedySample st.ctxToks) with
      | error e =>
        rw [genLoop_bytesErr_case m fuel st e hEog hB] at hok
        simp at hok
      | ok bs =>
        cases hD : m.ctxDecodeOk (st.ctxToks ++ [m.greedySample st.ctxToks]) with
        | some e =>
          rw [genLoop_decodeErr_case m fuel st bs e hEog hB hD] at hok
          simp at hok
        | none =>
          rw [genLoop_step_case m fuel st bs hEog hB hD] at hok hlt ⊢
          refine ih _ hok ?_
          refine lt_of_lt_of_le hlt ?_
          simp [countEv_append, countEv]
          omega

/-- Decoding invariant: on an error-free run, the accumulated translation is
exactly the characters emitted by feeding the traced byte chunks through the
incremental decoder starting from the entry state, and the final pending
bytes are the decoder's final state — never flushed into the output. -/
theorem genLoop_translation_spec (m : ModelOracle) :
    ∀ (fuel : Nat) (st : GenSt),
      (genLoop m fuel st).2 = none →
      ∃ tail, ((genLoop m fuel st).1).evs = st.evs ++ tail ∧
        ((genLoop m fuel st).1).translation.data =
          st.translation.data ++ (feedChunks st.pend (chunksOf tail)).1 ∧
        ((genLoop m fuel st).1).pend = (feedChunks st.pend (chunksOf tail)).2 := by
  intro fuel
  induction fuel with
  | zero =>
    intro st _
    exact ⟨[], by simp [genLoop_zero, chunksOf, feedChunks]⟩
  | succ fuel ih =>
    intro st hok
    cases hEog : m.isEog (m.greedySample st.ctxToks) with
    | true =>
      refine ⟨[Ev.sampleEv, Ev.eogStop], ?_⟩
      rw [genLoop_eog_case m fuel st hEog]
      simp [chunksOf, feedChunks]
    | false =>
      cases hB : m.tokenToBytes (m.greedySample st.ctxToks) with
      | error e =>
        rw [genLoop_bytesErr_case m fuel st e hEog hB] at hok
        simp at hok
      | ok bs =>
        cases hD : m.ctxDecodeOk (st.ctxToks ++ [m.greedySample st.ctxToks]) with
        | some e =>
          rw [genLoop_decodeErr_case m fuel st bs e hEog hB hD] at hok
          simp at hok
        | none =>
          rw [genLoop_step_case m fuel st bs hEog hB hD] at hok ⊢
          obtain ⟨tail, h1, h2, h3⟩ := ih
            { st with
              ctxToks := st.ctxToks ++ [m.greedySample st.ctxToks]
              translation := st.translation ++ String.mk (decoderFeed st.pend bs).1
              pend := (decoderFeed st.pend bs).2
              nCur := st.nCur + 1
              evs := st.evs ++ [Ev.sampleEv, Ev.bytesEv bs, Ev.ctxDecodeEv] } hok
          refine ⟨[Ev.sampleEv, Ev.bytesEv bs, Ev.ctxDecodeEv] ++ tail, ?_, ?_, ?_⟩
          · rw [h1]; simp
          · rw [h2]
            simp only [chunksOf, List.filterMap_cons, List.filterMap_append] at *
            simp [feedChunks, String.data_append, chunksOf]
          · rw [h3]
            simp [feedChunks, chunksOf]

/-! ## translateCore branch lemmas -/

theorem translateCore_ctxErr (m : ModelOracle) (t : String) (d : TranslationDirection)
    (e : String) (hctx : m.newContextErr = some e) :
    translateCore m t d = (.error "Failed to create context", []) := by
  simp [translateCore, hctx]

theorem translateCore_tokErr (m : ModelOracle) (t : String) (d : TranslationDirection)
    (e : String) (hctx : m.newContextErr = none)
    (htok : m.tokenizeRaw (fullPromptOf d t) = .error e) :
    translateCore m t d =
      (.error "Failed to tokenize prompt", [Ev.tokenizeEv (fullPromptOf d t)]) := by
  simp [translateCore, hctx, htok]

theorem translateCore_batchFull (m : ModelOracle) (t : String) (d : TranslationDirection)
    (raw : List Token) (hctx : m.newContextErr = none)
    (htok : m.tokenizeRaw (fullPromptOf d t) = .ok raw)
    (hlong : 512 < raw.length + 1) :
    translateCore m t d =
      (.error BATCH_ADD_ERROR_MSG, [Ev.tokenizeEv (fullPromptOf d t)]) := by
  have herr := addPrompt_err_of_gt 512 raw.length
    (m.bosTok :: raw) 0 [] (by simp) (by simp; omega)
  simp [translateCore, hctx, htok, herr]

theorem translateCore_prefillErr (m : ModelOracle) (t : String) (d : TranslationDirection)
    (raw : List Token) (e : String) (hctx : m.newContextErr = none)
    (htok : m.tokenizeRaw (fullPromptOf d t) = .ok raw)
    (hlen : raw.length + 1 ≤ 512)
    (hpre : m.ctxDecodeOk (m.bosTok :: raw) = some e) :
    translateCore m t d =
      (.error "Failed to decode prompt",
        [Ev.tokenizeEv (fullPromptOf d t), Ev.prefillEv (m.bosTok :: raw)]) := by
  obtain ⟨acc, hacc⟩ := addPrompt_ok_of_le 512 raw.length
    (m.bosTok :: raw) 0 [] (by simp; omega)
  simp [translateCore, hctx, htok, hacc, hpre]

theorem translateCore_run (m : ModelOracle) (t : String) (d : TranslationDirection)
    (raw : List Token) (hctx : m.newContextErr = none)
    (htok : m.tokenizeRaw (fullPromptOf d t) = .ok raw)
    (hlen : raw.length + 1 ≤ 512)
    (hpre : m.ctxDecodeOk (m.bosTok :: raw) = none) :
    translateCore m t d =
      finishRun (genLoop m ((MAX_TOKENS - ((m.bosTok :: raw).length : Int)).toNat)
        (initGenSt (fullPromptOf d t) (m.bosTok :: raw))) := by
  obtain ⟨acc, hacc⟩ := addPrompt_ok_of_le 512 raw.length
    (m.bosTok :: raw) 0 [] (by simp; omega)
  simp [translateCore, hctx, htok, hacc, hpre]

theorem finishRun_evs (r : GenSt × Option String) : (finishRun r).2 = r.1.evs := by
  rcases r with ⟨st, err⟩
  cases err <;> rfl

/-- The trace always starts with the tokenizer call on the composed prompt
(once the per-request context has been created). -/
theorem translateCore_evs_head (m : ModelOracle) (t : String) (d : TranslationDirection)
    (hctx : m.newContextErr = none) :
    ((translateCore m t d).2).head? = some (Ev.tokenizeEv (fullPromptOf d t)) := by
  rcases htok : m.tokenizeRaw (fullPromptOf d t) with e | raw
  · rw [translateCore_tokErr m t d e hctx htok]
    rfl
  · by_cases hlen : raw.length + 1 ≤ 512
    · rcases hpre : m.ctxDecodeOk (m.bosTok :: raw) with _ | e2
      · rw [translateCore_run m t d raw hctx htok hlen hpre, finishRun_evs]
        obtain ⟨tail, hevs, _⟩ := genLoop_evs_count m
          ((MAX_TOKENS - ((m.bosTok :: raw).length : Int)).toNat)
          (initGenSt (fullPromptOf d t) (m.bosTok :: raw))
        rw [hevs]
        simp [initGenSt]
      · rw [translateCore_prefillErr m t d raw e2 hctx htok hlen hpre]
        rfl
    · rw [translateCore_batchFull m t d raw hctx htok (by omega)]
      rfl

/-- If the prompt fits the batch, the full prompt token list — BOS prepended —
is submitted to the prefill pass, and this shows up in the trace. -/
theorem translateCore_prefill_mem (m : ModelOracle) (t : String) (d : TranslationDirection)
    (raw : List Token) (hctx : m.newContextErr = none)
    (htok : m.tokenizeRaw (fullPromptOf d t) = .ok raw)
    (hlen : raw.length + 1 ≤ 512) :
    Ev.prefillEv (m.bosTok :: raw) ∈ (translateCore m t d).2 := by
  rcases hpre : m.ctxDecodeOk (m.bosTok :: raw) with _ | e2
  · rw [translateCore_run m t d raw hctx htok hlen hpre, finishRun_evs]
    obtain ⟨tail, hevs, _⟩ := genLoop_evs_count m
      ((MAX_TOKENS - ((m.bosTok :: raw).length : Int)).toNat)
      (initGenSt (fullPromptOf d t) (m.bosTok :: raw))
    rw [hevs]
    simp [initGenSt]
  · rw [translateCore_prefillErr m t d raw e2 hctx htok hlen hpre]
    simp

/-! ## Claim theorems -/

/-- **C1.** For a fixed loaded model, `translate` is a pure function of
`(text, direction)`: the service state is unchanged by a call, and a second
sequential call returns exactly the same result (greedy sampling and all
native calls are deterministic functions in the model, mirroring the code's
freedom from randomness). -/
theorem c1_translate_deterministic (o : SvcOracles) (w : SvcWorld) (t : String)
    (d : TranslationDirection) (h : w.isLoaded = true) :
    (svcTranslate o w t d).2.1 = w ∧
      (svcTranslate o (svcTranslate o w t d).2.1 t d).1 = (svcTranslate o w t d).1 := by
  have hl := ensureModelLoaded_loaded o w h
  constructor
  · simp [svcTranslate, hl]
  · simp [svcTranslate, hl]

theorem c1_translate_deterministic_witness :
    wLoaded.isLoaded = true ∧
      (svcTranslate okOracles wLoaded "Hello" .EnglishToJapanese).2.1 = wLoaded ∧
      (svcTranslate okOracles (svcTranslate okOracles wLoaded "Hello" .EnglishToJapanese).2.1
          "Hello" .EnglishToJapanese).1 =
        (svcTranslate okOracles wLoaded "Hello" .EnglishToJapanese).1 :=
  ⟨rfl, (c1_translate_deterministic okOracles wLoaded "Hello" .EnglishToJapanese rfl).1,
    (c1_translate_deterministic okOracles wLoaded "Hello" .EnglishToJapanese rfl).2⟩

/-- **C4 (code bug).** After the direct download tier fails mid-stream
(HTTP 200, one 7-byte chunk written, then a stream error) and the hub tier
also fails, a half-written, incomplete file sits at the cache path — and a
subsequent `ensure_model_downloaded` call returns success immediately with no
network I/O: the mere existence check at translation.rs line 79 treats the
half-written file as already downloaded, contradicting the claim. -/
theorem c4_partial_file_treated_as_downloaded :
    (ensureModelDownloaded c4Net wEmpty).1 =
        .error "Failed to download model from HuggingFace" ∧
      (ensureModelDownloaded c4Net wEmpty).2.1.file = some ⟨7, false⟩ ∧
      ensureModelDownloaded anyNet (ensureModelDownloaded c4Net wEmpty).2.1 =
        (.ok (), (ensureModelDownloaded c4Net wEmpty).2.1, []) := by
  decide

/-- **C6.** Any direction token other than `"en-ja"`/`"ja-en"` yields the
structured invalid-direction failure, leaves the world untouched, and
produces an empty trace — in particular the tokenizer is never reached. -/
theorem c6_invalid_direction (o : SvcOracles) (w : SvcWorld) (t dir : String)
    (h1 : dir ≠ "en-ja") (h2 : dir ≠ "ja-en") :
    translateCmd o w t dir =
      (.ok { success := false, translation := none,
             error := some ("Invalid translation direction: " ++ dir) }, w, []) := by
  have hd : dirOf dir = none := by
    unfold dirOf
    split <;> simp_all
  simp [translateCmd, hd]

theorem c6_invalid_direction_witness :
    translateCmd okOracles wLoaded "hello" "fr-de" =
      (.ok { success := false, translation := none,
             error := some ("Invalid translation direction: " ++ "fr-de") },
        wLoaded, []) :=
  c6_invalid_direction okOracles wLoaded "hello" "fr-de" (by decide) (by decide)

/-- **C7 (counterexample).** Two sequential `ensure_model_loaded` calls CAN
issue two native load calls: with the artifact cached but the native load
failing, each call reaches `LlamaModel::load_from_file` once, so the two
traces together contain two native-load events, refuting "two sequential
calls never issue two native load calls". -/
theorem c7_counterexample_double_load :
    countEv Ev.nativeLoad
        ((ensureModelLoaded failLoadOracles wCached).2.2 ++
          (ensureModelLoaded failLoadOracles
              (ensureModelLoaded failLoadOracles wCached).2.1).2.2) = 2 := by
  decide

/-- **C7 (amended).** `ensure_model_loaded` is idempotent in the success
cases: if the model is already loaded it returns immediately with no native
load call; after any successful call the loaded flag is set and every later
call returns immediately without touching the native backend. (Only a FAILED
first call can lead to a second native load attempt.) -/
theorem c7_load_idempotent (o o2 : SvcOracles) (w : SvcWorld) :
    (w.isLoaded = true → ensureModelLoaded o w = (.ok (), w, [])) ∧
      (∀ w' evs, ensureModelLoaded o w = (.ok (), w', evs) →
        isModelLoaded w' = true ∧ ensureModelLoaded o2 w' = (.ok (), w', [])) := by
  refine ⟨fun h => ensureModelLoaded_loaded o w h, fun w' evs h => ?_⟩
  have hl := ensureModelLoaded_ok_loaded o w w' evs h
  exact ⟨hl, ensureModelLoaded_loaded o2 w' hl⟩

theorem c7_load_idempotent_witness :
    isModelLoaded (ensureModelLoaded okOracles wCached).2.1 = true ∧
      ensureModelLoaded failLoadOracles (ensureModelLoaded okOracles wCached).2.1 =
        (.ok (), (ensureModelLoaded okOracles wCached).2.1, []) :=
  (c7_load_idempotent okOracles failLoadOracles wCached).2
    (ensureModelLoaded okOracles wCached).2.1
    (ensureModelLoaded okOracles wCached).2.2 (by decide)

/-- **C8.** If a file exists at the cache path, `ensure_model_downloaded`
returns success immediately with no network I/O (empty trace, unchanged
world); and after any successful call the artifact exists, so a second
sequential call — under any network behaviour — downloads nothing. -/
theorem c8_download_idempotent (net net2 : NetOracle) (w : SvcWorld) :
    (w.file.isSome → ensureModelDownloaded net w = (.ok (), w, [])) ∧
      (∀ w' evs, ensureModelDownloaded net w = (.ok (), w', evs) →
        ensureModelDownloaded net2 w' = (.ok (), w', [])) := by
  refine ⟨fun h => ensureModelDownloaded_cached net w h, fun w' evs h => ?_⟩
  exact ensureModelDownloaded_cached net2 w'
    (ensureModelDownloaded_ok_isSome net w w' evs h)

theorem c8_download_idempotent_witness :
    wCached.file.isSome ∧
      ensureModelDownloaded anyNet wCached = (.ok (), wCached, []) :=
  ⟨by decide, (c8_download_idempotent c4Net anyNet wCached).2 wCached [] (by decide)⟩

/-- **C2.** The generation loop terminates within the per-request budget:
(i) it performs at most `maxNewTokens = 512 - promptTokenCount` sampling
iterations (`0..max_new_tokens` is empty when the bound is ≤ 0);
(ii) a successful run that used fewer iterations than the budget stopped at
an end-of-generation token;
(iii) when the prompt takes exactly the 512-token budget (`maxNewTokens = 0`),
`translate` returns an empty translation with no error. -/
theorem c2_generation_bounded (m : ModelOracle) (t : String) (d : TranslationDirection)
    (ts : List Token) (htok : m.tokenizeRaw (fullPromptOf d t) = .ok ts) :
    countEv Ev.sampleEv (translateCore m t d).2 ≤
        (MAX_TOKENS - (((ts.length + 1 : Nat)) : Int)).toNat ∧
      (∀ s, (translateCore m t d).1 = .ok s →
        countEv Ev.sampleEv (translateCore m t d).2 <
          (MAX_TOKENS - (((ts.length + 1 : Nat)) : Int)).toNat →
        Ev.eogStop ∈ (translateCore m t d).2) ∧
      (ts.length + 1 = 512 → m.newContextErr = none →
        m.ctxDecodeOk (m.bosTok :: ts) = none →
        (translateCore m t d).1 = .ok "") := by
  rcases hctx : m.newContextErr with _ | e
  · by_cases hlen : ts.length + 1 ≤ 512
    · rcases hpre : m.ctxDecodeOk (m.bosTok :: ts) with _ | e2
      · rw [translateCore_run m t d ts hctx htok hlen hpre]
        obtain ⟨tail, hevs, hcount⟩ := genLoop_evs_count m
          ((MAX_TOKENS - ((m.bosTok :: ts).length : Int)).toNat)
          (initGenSt (fullPromptOf d t) (m.bosTok :: ts))
        have hzero : countEv Ev.sampleEv
            (initGenSt (fullPromptOf d t) (m.bosTok :: ts)).evs = 0 := by
          simp [initGenSt, countEv]
        refine ⟨?_, ?_, ?_⟩
        · rw [finishRun_evs]
          refine le_trans hcount ?_
          rw [hzero]
          simp
        · intro s hs hlt
          rw [finishRun_evs] at hlt ⊢
          have hnone : (genLoop m ((MAX_TOKENS - ((m.bosTok :: ts).length : Int)).toNat)
              (initGenSt (fullPromptOf d t) (m.bosTok :: ts))).2 = none := by
            rcases hg : (genLoop m ((MAX_TOKENS - ((m.bosTok :: ts).length : Int)).toNat)
                (initGenSt (fullPromptOf d t) (m.bosTok :: ts))).2 with _ | e3
            · rfl
            · rw [finishRun, hg] at hs
              simp at hs
          refine genLoop_early_stop_eog m _ _ hnone ?_
          rw [hzero]
          simpa using hlt
        · intro h512 _ _
          have hfuel : ((MAX_TOKENS - ((m.bosTok :: ts).length : Int)).toNat) = 0 := by
            simp only [List.length_cons, MAX_TOKENS]
            omega
          rw [hfuel, genLoop_zero]
          rfl
      · rw [translateCore_prefillErr m t d ts e2 hctx htok hlen hpre]
        refine ⟨by simp [countEv], by intro s hs; simp at hs, ?_⟩
        intro _ _ hpre2
        simp at hpre2
    · rw [translateCore_batchFull m t d ts hctx htok (by omega)]
      refine ⟨by simp [countEv], by intro s hs; simp at hs, ?_⟩
      intro h512 _ _
      omega
  · rw [translateCore_ctxErr m t d e hctx]
    refine ⟨by simp [countEv], by intro s hs; simp at hs, ?_⟩
    intro _ hctx2 _
    simp at hctx2

theorem c2_generation_bounded_witness :
    (List.replicate 511 (5 : Token)).length + 1 = 512 ∧
      (translateCore longTok "a" .EnglishToJapanese).1 = .ok "" := by
  have h := c2_generation_bounded longTok "a" .EnglishToJapanese
    (List.replicate 511 5) rfl
  exact ⟨by simp, h.2.2 (by simp) rfl rfl⟩

/-- **C3.** For every text and valid direction token, the prompt handed to
the tokenizer is exactly `systemPrompt(direction) ++ "\n" ++ text`, with
`"en-ja"` selecting "Translate to Japanese." and `"ja-en"` selecting
"Translate to English."; and whenever tokenization succeeds (and the prompt
fits the batch), the token list submitted to the prefill pass is exactly the
raw tokenization with the beginning-of-sequence token prepended. -/
theorem c3_prompt_composition (o : SvcOracles) (w : SvcWorld) (t : String)
    (hl : w.isLoaded = true) (hctx : o.model.newContextErr = none) :
    ((translateCmd o w t "en-ja").2.2).head? =
        some (Ev.tokenizeEv (SYSTEM_PROMPT_EN_TO_JA ++ "\n" ++ t)) ∧
      ((translateCmd o w t "ja-en").2.2).head? =
        some (Ev.tokenizeEv (SYSTEM_PROMPT_JA_TO_EN ++ "\n" ++ t)) ∧
      (∀ d ts, o.model.tokenizeRaw (fullPromptOf d t) = .ok ts → ts.length + 1 ≤ 512 →
        Ev.prefillEv (o.model.bosTok :: ts) ∈ (translateCore o.model t d).2) := by
  have hml := ensureModelLoaded_loaded o w hl
  have cmdEvs : ∀ (dtok : String) (dd : TranslationDirection), dirOf dtok = some dd →
      (translateCmd o w t dtok).2.2 = (translateCore o.model t dd).2 := by
    intro dtok dd hdir
    simp only [translateCmd, hdir, svcTranslate, hml]
    rcases hc : translateCore o.model t dd with ⟨r, evs⟩
    rcases r with e | str <;> simp
  refine ⟨?_, ?_, fun d ts h1 h2 => translateCore_prefill_mem o.model t d ts hctx h1 h2⟩
  · rw [cmdEvs "en-ja" .EnglishToJapanese rfl]
    exact translateCore_evs_head o.model t .EnglishToJapanese hctx
  · rw [cmdEvs "ja-en" .JapaneseToEnglish rfl]
    exact translateCore_evs_head o.model t .JapaneseToEnglish hctx

theorem c3_prompt_composition_witness :
    ((translateCmd okOracles wLoaded "Hi" "en-ja").2.2).head? =
        some (Ev.tokenizeEv (SYSTEM_PROMPT_EN_TO_JA ++ "\n" ++ "Hi")) ∧
      Ev.prefillEv [1, 5] ∈ (translateCore toyModel "Hi" .EnglishToJapanese).2 := by
  have h := c3_prompt_composition okOracles wLoaded "Hi" rfl rfl
  exact ⟨h.1, h.2.2 .EnglishToJapanese [5] rfl (by decide)⟩

/-- **C5.** The `translate` command never raises: its Rust `Result` is `Ok`
with the structured `{success, translation, error}` shape for every input,
every world and every oracle behaviour (i.e. every internal failure); and
when the direction parses but the service-level translation fails with cause
`e`, the response carries `error = "Translation failed: " ++ e`. -/
theorem c5_structured_result (o : SvcOracles) (w : SvcWorld) (t dir : String) :
    (∃ resp, (translateCmd o w t dir).1 = .ok resp) ∧
      (∀ d e, dirOf dir = some d → (svcTranslate o w t d).1 = .error e →
        (translateCmd o w t dir).1 =
          .ok { success := false, translation := none,
                error := some ("Translation failed: " ++ e) }) := by
  constructor
  · rcases hdir : dirOf dir with _ | d
    · exact ⟨TranslateResponse.mk false none
        (some ("Invalid translation direction: " ++ dir)), by simp [translateCmd, hdir]⟩
    · rcases hs : svcTranslate o w t d with ⟨r, w2, evs⟩
      rcases r with e | str
      · exact ⟨TranslateResponse.mk false none
          (some ("Translation failed: " ++ e)), by simp [translateCmd, hdir, hs]⟩
      · exact ⟨TranslateResponse.mk true (some str) none,
          by simp [translateCmd, hdir, hs]⟩
  · intro d e hdir he
    rcases hs : svcTranslate o w t d with ⟨r, w2, evs⟩
    rw [hs] at he
    simp only at he
    subst he
    simp [translateCmd, hdir, hs]

theorem c5_structured_result_witness :
    (translateCmd failLoadOracles wCached "Hi" "en-ja").1 =
      .ok { success := false, translation := none,
            error := some ("Translation failed: " ++ "Failed to load model") } :=
  (c5_structured_result failLoadOracles wCached "Hi" "en-ja").2 .EnglishToJapanese
    "Failed to load model" rfl (by decide)

/-- **C9.** A composed prompt that tokenizes to more tokens than the usable
512-token window (the `LlamaBatch::new(512, 1)` capacity, = `MAX_TOKENS`)
makes `translate` fail with the batch-capacity error — the embedding's
`PromptTooLongError` — before any generation occurs: no prefill, no sampling,
no per-token decode appears in the trace. -/
theorem c9_prompt_too_long (m : ModelOracle) (t : String) (d : TranslationDirection)
    (ts : List Token) (hctx : m.newContextErr = none)
    (htok : m.tokenizeRaw (fullPromptOf d t) = .ok ts)
    (hlong : 512 < ts.length + 1) :
    (translateCore m t d).1 = .error BATCH_ADD_ERROR_MSG ∧
      countEv Ev.sampleEv (translateCore m t d).2 = 0 ∧
      (∀ l, Ev.prefillEv l ∉ (translateCore m t d).2) ∧
      Ev.ctxDecodeEv ∉ (translateCore m t d).2 := by
  rw [translateCore_batchFull m t d ts hctx htok hlong]
  refine ⟨rfl, by simp [countEv], ?_, by simp⟩
  intro l
  simp

theorem c9_prompt_too_long_witness :
    512 < (List.replicate 600 (5 : Token)).length + 1 ∧
      (translateCore hugeTok "x" .JapaneseToEnglish).1 = .error BATCH_ADD_ERROR_MSG :=
  ⟨by simp, (c9_prompt_too_long hugeTok "x" .JapaneseToEnglish
    (List.replicate 600 5) rfl rfl (by simp)).1⟩

/-- **C10.** On every successful run, the returned translation is exactly the
trim of the characters COMPLETED by the incremental UTF-8 decoder over the
generated byte stream: the decoder's final pending bytes (an incomplete
multi-byte fragment buffered when generation was cut by EOG or by the token
budget) are silently discarded — the decoder is never finalized, so no
replacement character is emitted for the trailing fragment. -/
theorem c10_trailing_bytes_discarded (m : ModelOracle) (t : String)
    (d : TranslationDirection) (s : String)
    (h : (translateCore m t d).1 = .ok s) :
    s = rustTrim (String.mk (utf8DecodeLoop (chunksOf (translateCore m t d).2).join).1) := by
  rcases hctx : m.newContextErr with _ | e
  · rcases htok : m.tokenizeRaw (fullPromptOf d t) with e | raw
    · rw [translateCore_tokErr m t d e hctx htok] at h
      simp at h
    · by_cases hlen : raw.length + 1 ≤ 512
      · rcases hpre : m.ctxDecodeOk (m.bosTok :: raw) with _ | e2
        · rw [translateCore_run m t d raw hctx htok hlen hpre] at h ⊢
          rcases hg : (genLoop m ((MAX_TOKENS - ((m.bosTok :: raw).length : Int)).toNat)
              (initGenSt (fullPromptOf d t) (m.bosTok :: raw))).2 with _ | e3
          · obtain ⟨tail, hevs, hdata, hpend⟩ := genLoop_translation_spec m
              ((MAX_TOKENS - ((m.bosTok :: raw).length : Int)).toNat)
              (initGenSt (fullPromptOf d t) (m.bosTok :: raw)) hg
            simp only [finishRun, hg] at h
            simp only [Except.ok.injEq] at h
            subst h
            rw [finishRun_evs, hevs]
            have hchunks : chunksOf ((initGenSt (fullPromptOf d t)
                (m.bosTok :: raw)).evs ++ tail) = chunksOf tail := by
              simp [chunksOf, initGenSt]
            rw [hchunks]
            have hfeed : feedChunks [] (chunksOf tail) =
                utf8DecodeLoop (chunksOf tail).join := by
              rw [feedChunks_join]
              rfl
            have hstr : (genLoop m ((MAX_TOKENS - ((m.bosTok :: raw).length : Int)).toNat)
                (initGenSt (fullPromptOf d t) (m.bosTok :: raw))).1.translation =
                String.mk (utf8DecodeLoop (chunksOf tail).join).1 := by
              apply String.ext
              rw [hdata]
              simp only [initGenSt]
              rw [hfeed]
              simp
            rw [hstr]
          · simp only [finishRun, hg] at h
            simp at h
        · rw [translateCore_prefillErr m t d raw e2 hctx htok hlen hpre] at h
          simp at h
      · rw [translateCore_batchFull m t d raw hctx htok (by omega)] at h
        simp at h
  · rw [translateCore_ctxErr m t d e hctx] at h
    simp at h

theorem c10_trailing_bytes_discarded_witness :
    (translateCore toyModel "x" .EnglishToJapanese).1 = .ok "こ" ∧
      "こ" = rustTrim (String.mk (utf8DecodeLoop
          (chunksOf (translateCore toyModel "x" .EnglishToJapanese).2).join).1) ∧
      (utf8DecodeLoop
          (chunksOf (translateCore toyModel "x" .EnglishToJapanese).2).join).2 ≠ [] :=
  ⟨by decide,
    c10_trailing_bytes_discarded toyModel "x" .EnglishToJapanese "こ" (by decide),
    by decide⟩

end Konnyaku
